import Mathlib

/-!
Verification of the flash-prompter playback/timing engine and mode state
machine, shallowly embedded from src/src/App.tsx.  Timestamps, progress
values and settings numbers are modelled as rationals; the per-frame
requestAnimationFrame callback is the function tick, which returns the
updated state together with the boolean "a further frame was scheduled".
-/

namespace FlashPrompter

/-- The three application screens, App.tsx line 18. -/
inductive Mode where
  | input
  | prompter
  | settings
  deriving DecidableEq

/-- User-tunable parameters, App.tsx lines 20-25. -/
structure Settings where
  wordsPerMinute : ℚ
  fontSize : ℚ
  lineHeight : ℚ
  autoStart : Bool
  deriving DecidableEq

/-- Default settings, App.tsx lines 13-15 and 27-32. -/
def DEFAULT_SETTINGS : Settings :=
  { wordsPerMinute := 60, fontSize := 34, lineHeight := 48, autoStart := false }

/-- A partial settings object (TypeScript Partial of Settings): each field
may be absent. -/
structure SettingsPatch where
  wordsPerMinute : Option ℚ := none
  fontSize : Option ℚ := none
  lineHeight : Option ℚ := none
  autoStart : Option Bool := none
  deriving DecidableEq

/-- clamp from App.tsx lines 56-57: Math.min(max, Math.max(min, value)). -/
def clamp (value mn mx : ℚ) : ℚ :=
  min mx (max mn value)

/-- normalizeSettings from App.tsx lines 59-64: absent fields fall back to
the defaults, numeric fields are clamped into their bounds. -/
def normalizeSettings (value : SettingsPatch) : Settings :=
  { wordsPerMinute := clamp (value.wordsPerMinute.getD 60) 20 240
    fontSize := clamp (value.fontSize.getD 34) 20 64
    lineHeight := clamp (value.lineHeight.getD 48) 28 96
    autoStart := value.autoStart.getD false }

/-- load from App.tsx lines 66-83: merge the persisted record with the live
autostart query result (the live value wins; a failed query reads false) and
normalize.  The stored patch stands for whatever JSON.parse produced, or the
empty patch on read failure. -/
def load (stored : SettingsPatch) (liveAutoStart : Bool) : Settings :=
  normalizeSettings { stored with autoStart := some liveAutoStart }

/-- updateSettings from App.tsx lines 154-156: shallow merge of a partial
settings object into the current settings, with no re-clamping. -/
def updateSettings (prev : Settings) (next : SettingsPatch) : Settings :=
  { wordsPerMinute := next.wordsPerMinute.getD prev.wordsPerMinute
    fontSize := next.fontSize.getD prev.fontSize
    lineHeight := next.lineHeight.getD prev.lineHeight
    autoStart := next.autoStart.getD prev.autoStart }

/-- toggleAutoStart from App.tsx lines 158-170.  externalOk tells whether the
awaited enable/disable call succeeded.  The first component is the state
after the optimistic in-memory flip; the second is the state once the
external call has settled (on failure the flag is set back to the pre-toggle
value inside the catch block, so no exception escapes). -/
def toggleAutoStart (st : Settings) (externalOk : Bool) : Settings × Settings :=
  let next := !st.autoStart
  let flipped := { st with autoStart := next }
  (flipped, if externalOk then flipped else { flipped with autoStart := !next })

/-- restoreDefaults from App.tsx lines 172-179: the settings become
DEFAULT_SETTINGS whether or not the external disable call succeeds (its
failure is swallowed). -/
def restoreDefaults (_st : Settings) (_disableOk : Bool) : Settings :=
  DEFAULT_SETTINGS

/-- words from App.tsx line 46: whitespace-delimited non-empty tokens of the
content. -/
def words (content : String) : List String :=
  (content.split Char.isWhitespace).filter (fun w => w ≠ "")

/-- totalWords from App.tsx line 47: words.length with 0 replaced by 1. -/
def totalWords (content : String) : ℕ :=
  if (words content).length = 0 then 1 else (words content).length

/-- wordsPerSecond from App.tsx line 48. -/
def wordsPerSecond (settings : Settings) : ℚ :=
  settings.wordsPerMinute / 60

/-- totalSeconds from App.tsx line 49. -/
def totalSeconds (content : String) (settings : Settings) : ℚ :=
  (totalWords content : ℚ) / wordsPerSecond settings

/-- The default script, App.tsx lines 6-11. -/
def DEFAULT_TEXT : String :=
  "欢迎使用 Flash Prompter\n\n这是一段默认提词内容。\n直接开始录制，按空格播放/暂停。\n\n祝你录制顺利。"

/-- The state of the App component: the useState hooks mode, isPlaying,
progress, content, settings, the refs startTimeRef, startProgressRef,
settingsReturnModeRef, and clock, the timestamp of the most recent
animation frame (requestAnimationFrame timestamps never go backwards). -/
structure AppState where
  mode : Mode
  isPlaying : Bool
  progress : ℚ
  content : String
  settings : Settings
  startTime : Option ℚ
  startProgress : ℚ
  settingsReturnMode : Mode
  clock : ℚ
  deriving DecidableEq

/-- Initial component state, App.tsx lines 35-44. -/
def initState : AppState :=
  { mode := Mode.input
    isPlaying := false
    progress := 0
    content := DEFAULT_TEXT
    settings := DEFAULT_SETTINGS
    startTime := none
    startProgress := 0
    settingsReturnMode := Mode.input
    clock := 0 }

/-- tick from App.tsx lines 99-113, the per-frame callback.  A null
startTimeRef is anchored at the frame timestamp; then the candidate progress
is startProgress plus elapsed seconds over totalSeconds.  At candidate >= 1
the callback completes (progress and startProgress pinned to 1, isPlaying
false) and returns without scheduling another frame; otherwise it stores the
candidate and schedules the next frame.  The boolean is that scheduling
decision. -/
def tick (s : AppState) (time : ℚ) : AppState × Bool :=
  let anchor := s.startTime.getD time
  let elapsed := (time - anchor) / 1000
  let nextProgress := s.startProgress + elapsed / totalSeconds s.content s.settings
  if 1 ≤ nextProgress then
    ({ s with startTime := some anchor
              progress := 1
              startProgress := 1
              isPlaying := false }, false)
  else
    ({ s with startTime := some anchor
              progress := nextProgress }, true)

/-- handleStart from App.tsx lines 181-191.  From Input it resets the
session to progress 0 and enters Prompter (enterPrompter, line 131); from
any other mode it re-anchors startProgress at the current progress.  Both
branches null the start time and set isPlaying. -/
def handleStart (s : AppState) : AppState :=
  if s.mode = Mode.input then
    { s with progress := 0
             startProgress := 0
             mode := Mode.prompter
             startTime := none
             isPlaying := true }
  else
    { s with startProgress := s.progress
             startTime := none
             isPlaying := true }

/-- handlePause from App.tsx lines 193-197: no-op when not playing,
otherwise stops playing and commits startProgress := progress. -/
def handlePause (s : AppState) : AppState :=
  if s.isPlaying then
    { s with isPlaying := false, startProgress := s.progress }
  else
    s

/-- handleStop from App.tsx lines 199-205 together with exitPrompter
(lines 139-141): unconditional reset of the playback session and return to
Input mode. -/
def handleStop (s : AppState) : AppState :=
  { s with isPlaying := false
           progress := 0
           startProgress := 0
           startTime := none
           mode := Mode.input }

/-- openSettings from App.tsx lines 143-148: a no-op while already in
Settings; otherwise records the current mode as the return mode, pauses
playback and switches to Settings. -/
def openSettings (s : AppState) : AppState :=
  if s.mode = Mode.settings then
    s
  else
    { s with settingsReturnMode := s.mode
             isPlaying := false
             mode := Mode.settings }

/-- closeSettings from App.tsx lines 150-152. -/
def closeSettings (s : AppState) : AppState :=
  { s with mode := s.settingsReturnMode }

/-- The textarea onChange handler from App.tsx lines 515-520: replace the
content and reset the playback session. -/
def editScript (s : AppState) (newContent : String) : AppState :=
  { s with content := newContent
           progress := 0
           startProgress := 0
           isPlaying := false }

/-- The external events the App component reacts to.  A tick carries the
requestAnimationFrame timestamp; setWpm, setFontSize and setLineHeight are
the three slider onChange handlers (App.tsx lines 405-451); toggleAuto and
restore carry the success of the awaited autostart call; edit carries the
new textarea content. -/
inductive Event where
  | tick (t : ℚ)
  | start
  | pause
  | stop
  | openSet
  | closeSet
  | edit (newContent : String)
  | setWpm (v : ℚ)
  | setFontSize (v : ℚ)
  | setLineHeight (v : ℚ)
  | toggleAuto (externalOk : Bool)
  | restore (disableOk : Bool)
  deriving DecidableEq

/-- One step of the application.  Guards record where each handler is
reachable in the rendered UI: the animation frame only fires while
isPlaying (the effect at App.tsx lines 96-123 schedules it exactly then)
and its timestamps never decrease; pause and stop buttons exist only on the
Prompter screen; closeSettings only on the Settings screen; the textarea
only on the Input screen; the sliders only on the Settings screen and their
range inputs bound the delivered value by their min/max attributes; the
start button exists on Input and Prompter and the space key is ignored in
Settings (App.tsx lines 207-223). -/
inductive Step : AppState → Event → AppState → Prop where
  | tick (s : AppState) (t : ℚ) :
      s.isPlaying = true → s.clock ≤ t →
      Step s (Event.tick t) { (FlashPrompter.tick s t).1 with clock := t }
  | start (s : AppState) :
      s.mode ≠ Mode.settings →
      Step s Event.start (handleStart s)
  | pause (s : AppState) :
      s.mode = Mode.prompter →
      Step s Event.pause (handlePause s)
  | stop (s : AppState) :
      s.mode = Mode.prompter →
      Step s Event.stop (handleStop s)
  | openSet (s : AppState) :
      Step s Event.openSet (openSettings s)
  | closeSet (s : AppState) :
      s.mode = Mode.settings →
      Step s Event.closeSet (closeSettings s)
  | edit (s : AppState) (c : String) :
      s.mode = Mode.input →
      Step s (Event.edit c) (editScript s c)
  | setWpm (s : AppState) (v : ℚ) :
      s.mode = Mode.settings → 20 ≤ v → v ≤ 240 →
      Step s (Event.setWpm v)
        { s with settings := updateSettings s.settings { wordsPerMinute := some v } }
  | setFontSize (s : AppState) (v : ℚ) :
      s.mode = Mode.settings → 20 ≤ v → v ≤ 64 →
      Step s (Event.setFontSize v)
        { s with settings := updateSettings s.settings { fontSize := some v } }
  | setLineHeight (s : AppState) (v : ℚ) :
      s.mode = Mode.settings → 28 ≤ v → v ≤ 96 →
      Step s (Event.setLineHeight v)
        { s with settings := updateSettings s.settings { lineHeight := some v } }
  | toggleAuto (s : AppState) (externalOk : Bool) :
      s.mode = Mode.settings →
      Step s (Event.toggleAuto externalOk)
        { s with settings := (toggleAutoStart s.settings externalOk).2 }
  | restore (s : AppState) (disableOk : Bool) :
      s.mode = Mode.settings →
      Step s (Event.restore disableOk)
        { s with settings := restoreDefaults s.settings disableOk }

/-- States reachable from the initial component state. -/
inductive Reachable : AppState → Prop where
  | init : Reachable initState
  | step (s s' : AppState) (e : Event) :
      Reachable s → Step s e s' → Reachable s'

/-- One operation of the settings store in isolation (the slider handlers,
toggleAutoStart, restoreDefaults). -/
inductive SettingsStep : Settings → Settings → Prop where
  | setWpm (st : Settings) (v : ℚ) :
      20 ≤ v → v ≤ 240 →
      SettingsStep st (updateSettings st { wordsPerMinute := some v })
  | setFontSize (st : Settings) (v : ℚ) :
      20 ≤ v → v ≤ 64 →
      SettingsStep st (updateSettings st { fontSize := some v })
  | setLineHeight (st : Settings) (v : ℚ) :
      28 ≤ v → v ≤ 96 →
      SettingsStep st (updateSettings st { lineHeight := some v })
  | toggleAuto (st : Settings) (externalOk : Bool) :
      SettingsStep st (toggleAutoStart st externalOk).2
  | restore (st : Settings) (disableOk : Bool) :
      SettingsStep st (restoreDefaults st disableOk)

/-- Settings states reachable from any load (arbitrary persisted record and
autostart query result) through any sequence of store operations. -/
inductive SettingsReachable : Settings → Prop where
  | loaded (stored : SettingsPatch) (liveAutoStart : Bool) :
      SettingsReachable (load stored liveAutoStart)
  | step (st st' : Settings) :
      SettingsReachable st → SettingsStep st st' → SettingsReachable st'

/-- Every numeric settings field sits inside its clamped bound. -/
def settingsInBounds (st : Settings) : Prop :=
  20 ≤ st.wordsPerMinute ∧ st.wordsPerMinute ≤ 240 ∧
  20 ≤ st.fontSize ∧ st.fontSize ≤ 64 ∧
  28 ≤ st.lineHeight ∧ st.lineHeight ≤ 96

/-- The inductive invariant of the application state machine: progress and
startProgress stay in the unit interval, the settings return mode is never
Settings, Input mode implies a reset session, playback happens only on the
Prompter screen with startProgress at or below progress, an anchored playing
state bounds progress by the elapsed-time formula at the current clock, an
unanchored playing state has not advanced past its startProgress, a Settings
screen opened from Input still has the reset session, and the Settings
screen is always paused. -/
structure Inv (s : AppState) : Prop where
  prog_nonneg : 0 ≤ s.progress
  prog_le_one : s.progress ≤ 1
  sp_nonneg : 0 ≤ s.startProgress
  sp_le_one : s.startProgress ≤ 1
  srm_ne : s.settingsReturnMode ≠ Mode.settings
  wpm_lb : 20 ≤ s.settings.wordsPerMinute
  input_reset : s.mode = Mode.input → s.progress = 0 ∧ s.startProgress = 0
  playing_mode : s.isPlaying = true → s.mode = Mode.prompter
  playing_sp_le : s.isPlaying = true → s.startProgress ≤ s.progress
  playing_anchor : s.isPlaying = true → ∀ t0, s.startTime = some t0 →
      t0 ≤ s.clock ∧
      s.progress ≤ s.startProgress +
        ((s.clock - t0) / 1000) / totalSeconds s.content s.settings
  playing_unanchored : s.isPlaying = true → s.startTime = none →
      s.progress = s.startProgress
  settings_from_input : s.mode = Mode.settings → s.settingsReturnMode = Mode.input →
      s.progress = 0 ∧ s.startProgress = 0
  settings_paused : s.mode = Mode.settings → s.isPlaying = false

theorem one_le_totalWords (content : String) : 1 ≤ totalWords content := by
  unfold totalWords
  split <;> omega

theorem totalSeconds_pos (content : String) (st : Settings)
    (h : 20 ≤ st.wordsPerMinute) : 0 < totalSeconds content st := by
  unfold totalSeconds wordsPerSecond
  apply div_pos
  · have h1 := one_le_totalWords content
    have h2 : 0 < totalWords content := by omega
    exact_mod_cast h2
  · linarith

theorem inv_initState : Inv initState := by
  constructor
  case wpm_lb => norm_num [initState, DEFAULT_SETTINGS]
  all_goals simp [initState, DEFAULT_SETTINGS]

theorem tick_complete (s : AppState) (t : ℚ)
    (h : 1 ≤ s.startProgress +
      (t - s.startTime.getD t) / 1000 / totalSeconds s.content s.settings) :
    tick s t =
      ({ s with startTime := some (s.startTime.getD t)
                progress := 1
                startProgress := 1
                isPlaying := false }, false) := by
  simp only [tick]
  rw [if_pos h]

theorem tick_advance (s : AppState) (t : ℚ)
    (h : ¬ 1 ≤ s.startProgress +
      (t - s.startTime.getD t) / 1000 / totalSeconds s.content s.settings) :
    tick s t =
      ({ s with startTime := some (s.startTime.getD t)
                progress := s.startProgress +
                  (t - s.startTime.getD t) / 1000 / totalSeconds s.content s.settings }, true) := by
  simp only [tick]
  rw [if_neg h]

theorem inv_tick (s : AppState) (t : ℚ) (hI : Inv s) (hp : s.isPlaying = true)
    (hct : s.clock ≤ t) : Inv { (tick s t).1 with clock := t } := by
  have hts : 0 < totalSeconds s.content s.settings := totalSeconds_pos _ _ hI.wpm_lb
  have hm := hI.playing_mode hp
  set a := s.startTime.getD t with ha
  have hat : a ≤ t := by
    cases hst : s.startTime with
    | none => simp [ha, hst]
    | some t0 =>
        have h1 := (hI.playing_anchor hp t0 hst).1
        simp only [ha, hst, Option.getD_some]
        linarith
  have hpr : s.progress ≤ s.startProgress +
      (t - a) / 1000 / totalSeconds s.content s.settings := by
    cases hst : s.startTime with
    | none =>
        have h0 := hI.playing_unanchored hp hst
        simp [ha, hst, h0]
    | some t0 =>
        obtain ⟨h1, h2⟩ := hI.playing_anchor hp t0 hst
        have ha0 : a = t0 := by simp [ha, hst]
        rw [ha0]
        refine le_trans h2 ?_
        have h4 : (s.clock - t0) / 1000 ≤ (t - t0) / 1000 := by linarith
        have h5 := (div_le_div_iff_of_pos_right hts).mpr h4
        linarith
  have hstep : 0 ≤ (t - a) / 1000 / totalSeconds s.content s.settings :=
    div_nonneg (div_nonneg (by linarith) (by norm_num)) hts.le
  have hsp_le_cand : s.startProgress ≤ s.startProgress +
      (t - a) / 1000 / totalSeconds s.content s.settings := by linarith
  have hcand_nonneg : 0 ≤ s.startProgress +
      (t - a) / 1000 / totalSeconds s.content s.settings :=
    le_trans hI.sp_nonneg hsp_le_cand
  rcases le_or_lt 1 (s.startProgress +
      (t - a) / 1000 / totalSeconds s.content s.settings) with hc | hc
  · have hc' : 1 ≤ s.startProgress +
        (t - s.startTime.getD t) / 1000 / totalSeconds s.content s.settings := by
      rw [← ha]; exact hc
    rw [tick_complete s t hc']
    exact
      { prog_nonneg := zero_le_one
        prog_le_one := le_refl 1
        sp_nonneg := zero_le_one
        sp_le_one := le_refl 1
        srm_ne := hI.srm_ne
        wpm_lb := hI.wpm_lb
        input_reset := by
          intro h
          exact Mode.noConfusion (hm.symm.trans h)
        playing_mode := by
          intro h
          exact Bool.noConfusion h
        playing_sp_le := by
          intro h
          exact Bool.noConfusion h
        playing_anchor := by
          intro h
          exact Bool.noConfusion h
        playing_unanchored := by
          intro h
          exact Bool.noConfusion h
        settings_from_input := by
          intro h
          exact Mode.noConfusion (hm.symm.trans h)
        settings_paused := fun _ => rfl }
  · have hc' : ¬ 1 ≤ s.startProgress +
        (t - s.startTime.getD t) / 1000 / totalSeconds s.content s.settings := by
      rw [← ha]; exact not_le.mpr hc
    rw [tick_advance s t hc', ← ha]
    exact
      { prog_nonneg := hcand_nonneg
        prog_le_one := le_of_lt hc
        sp_nonneg := hI.sp_nonneg
        sp_le_one := hI.sp_le_one
        srm_ne := hI.srm_ne
        wpm_lb := hI.wpm_lb
        input_reset := by
          intro h
          exact Mode.noConfusion (hm.symm.trans h)
        playing_mode := fun _ => hm
        playing_sp_le := fun _ => hsp_le_cand
        playing_anchor := by
          intro _ t0 h
          have ht0 : a = t0 := Option.some.inj h
          subst ht0
          exact ⟨hat, le_refl _⟩
        playing_unanchored := by
          intro _ h
          exact Option.noConfusion h
        settings_from_input := by
          intro h
          exact Mode.noConfusion (hm.symm.trans h)
        settings_paused := by
          intro h
          exact Mode.noConfusion (hm.symm.trans h) }

theorem inv_handleStart (s : AppState) (hI : Inv s) (hmode : s.mode ≠ Mode.settings) :
    Inv (handleStart s) := by
  unfold handleStart
  split
  case isTrue h =>
    exact
      { prog_nonneg := le_refl 0
        prog_le_one := zero_le_one
        sp_nonneg := le_refl 0
        sp_le_one := zero_le_one
        srm_ne := hI.srm_ne
        wpm_lb := hI.wpm_lb
        input_reset := by intro hh; exact Mode.noConfusion hh
        playing_mode := fun _ => rfl
        playing_sp_le := fun _ => le_refl 0
        playing_anchor := by intro _ t0 hh; exact Option.noConfusion hh
        playing_unanchored := fun _ _ => rfl
        settings_from_input := by intro hh _; exact Mode.noConfusion hh
        settings_paused := by intro hh; exact Mode.noConfusion hh }
  case isFalse h =>
    have hmp : s.mode = Mode.prompter := by
      cases hms : s.mode
      · exact absurd hms h
      · rfl
      · exact absurd hms hmode
    exact
      { prog_nonneg := hI.prog_nonneg
        prog_le_one := hI.prog_le_one
        sp_nonneg := hI.prog_nonneg
        sp_le_one := hI.prog_le_one
        srm_ne := hI.srm_ne
        wpm_lb := hI.wpm_lb
        input_reset := by intro hh; exact absurd hh h
        playing_mode := fun _ => hmp
        playing_sp_le := fun _ => le_refl _
        playing_anchor := by intro _ t0 hh; exact Option.noConfusion hh
        playing_unanchored := fun _ _ => rfl
        settings_from_input := by intro hh _; exact absurd hh hmode
        settings_paused := by intro hh; exact absurd hh hmode }

theorem inv_handlePause (s : AppState) (hI : Inv s) : Inv (handlePause s) := by
  unfold handlePause
  split
  case isTrue h =>
    exact
      { prog_nonneg := hI.prog_nonneg
        prog_le_one := hI.prog_le_one
        sp_nonneg := hI.prog_nonneg
        sp_le_one := hI.prog_le_one
        srm_ne := hI.srm_ne
        wpm_lb := hI.wpm_lb
        input_reset := fun hh => ⟨(hI.input_reset hh).1, (hI.input_reset hh).1⟩
        playing_mode := by intro hh; exact Bool.noConfusion hh
        playing_sp_le := by intro hh; exact Bool.noConfusion hh
        playing_anchor := by intro hh; exact Bool.noConfusion hh
        playing_unanchored := by intro hh; exact Bool.noConfusion hh
        settings_from_input :=
          fun hh hh2 => ⟨(hI.settings_from_input hh hh2).1, (hI.settings_from_input hh hh2).1⟩
        settings_paused := fun _ => rfl }
  case isFalse h => exact hI

theorem inv_handleStop (s : AppState) (hI : Inv s) : Inv (handleStop s) :=
  { prog_nonneg := le_refl 0
    prog_le_one := zero_le_one
    sp_nonneg := le_refl 0
    sp_le_one := zero_le_one
    srm_ne := hI.srm_ne
    wpm_lb := hI.wpm_lb
    input_reset := fun _ => ⟨rfl, rfl⟩
    playing_mode := by intro hh; exact Bool.noConfusion hh
    playing_sp_le := by intro hh; exact Bool.noConfusion hh
    playing_anchor := by intro hh; exact Bool.noConfusion hh
    playing_unanchored := by intro hh; exact Bool.noConfusion hh
    settings_from_input := by intro hh _; exact Mode.noConfusion hh
    settings_paused := fun _ => rfl }

theorem inv_openSettings (s : AppState) (hI : Inv s) : Inv (openSettings s) := by
  unfold openSettings
  split
  case isTrue h => exact hI
  case isFalse h =>
    exact
      { prog_nonneg := hI.prog_nonneg
        prog_le_one := hI.prog_le_one
        sp_nonneg := hI.sp_nonneg
        sp_le_one := hI.sp_le_one
        srm_ne := h
        wpm_lb := hI.wpm_lb
        input_reset := by intro hh; exact Mode.noConfusion hh
        playing_mode := by intro hh; exact Bool.noConfusion hh
        playing_sp_le := by intro hh; exact Bool.noConfusion hh
        playing_anchor := by intro hh; exact Bool.noConfusion hh
        playing_unanchored := by intro hh; exact Bool.noConfusion hh
        settings_from_input := fun _ hh2 => hI.input_reset hh2
        settings_paused := fun _ => rfl }

theorem inv_closeSettings (s : AppState) (hI : Inv s) (hmode : s.mode = Mode.settings) :
    Inv (closeSettings s) := by
  have hnp : s.isPlaying = false := hI.settings_paused hmode
  exact
    { prog_nonneg := hI.prog_nonneg
      prog_le_one := hI.prog_le_one
      sp_nonneg := hI.sp_nonneg
      sp_le_one := hI.sp_le_one
      srm_ne := hI.srm_ne
      wpm_lb := hI.wpm_lb
      input_reset := fun hh => hI.settings_from_input hmode hh
      playing_mode := by intro hp; exact Bool.noConfusion (hnp.symm.trans hp)
      playing_sp_le := by intro hp; exact Bool.noConfusion (hnp.symm.trans hp)
      playing_anchor := by intro hp; exact Bool.noConfusion (hnp.symm.trans hp)
      playing_unanchored := by intro hp; exact Bool.noConfusion (hnp.symm.trans hp)
      settings_from_input := fun hh _ => absurd hh hI.srm_ne
      settings_paused := fun _ => hnp }

theorem inv_editScript (s : AppState) (c : String) (hI : Inv s)
    (hmode : s.mode = Mode.input) : Inv (editScript s c) :=
  { prog_nonneg := le_refl 0
    prog_le_one := zero_le_one
    sp_nonneg := le_refl 0
    sp_le_one := zero_le_one
    srm_ne := hI.srm_ne
    wpm_lb := hI.wpm_lb
    input_reset := fun _ => ⟨rfl, rfl⟩
    playing_mode := by intro hh; exact Bool.noConfusion hh
    playing_sp_le := by intro hh; exact Bool.noConfusion hh
    playing_anchor := by intro hh; exact Bool.noConfusion hh
    playing_unanchored := by intro hh; exact Bool.noConfusion hh
    settings_from_input := by intro hh _; exact Mode.noConfusion (hmode.symm.trans hh)
    settings_paused := fun _ => rfl }

theorem inv_settingsChange (s : AppState) (st' : Settings) (hI : Inv s)
    (hmode : s.mode = Mode.settings) (hwpm : 20 ≤ st'.wordsPerMinute) :
    Inv { s with settings := st' } := by
  have hnp : s.isPlaying = false := hI.settings_paused hmode
  exact
    { prog_nonneg := hI.prog_nonneg
      prog_le_one := hI.prog_le_one
      sp_nonneg := hI.sp_nonneg
      sp_le_one := hI.sp_le_one
      srm_ne := hI.srm_ne
      wpm_lb := hwpm
      input_reset := by intro hh; exact Mode.noConfusion (hmode.symm.trans hh)
      playing_mode := by intro hp; exact Bool.noConfusion (hnp.symm.trans hp)
      playing_sp_le := by intro hp; exact Bool.noConfusion (hnp.symm.trans hp)
      playing_anchor := by intro hp; exact Bool.noConfusion (hnp.symm.trans hp)
      playing_unanchored := by intro hp; exact Bool.noConfusion (hnp.symm.trans hp)
      settings_from_input := fun hh hh2 => hI.settings_from_input hh hh2
      settings_paused := fun _ => hnp }

theorem toggleAutoStart_wpm (st : Settings) (externalOk : Bool) :
    ((toggleAutoStart st externalOk).2).wordsPerMinute = st.wordsPerMinute := by
  cases externalOk <;> rfl

theorem inv_step (s s' : AppState) (e : Event) (hI : Inv s) (h : Step s e s') :
    Inv s' := by
  cases h with
  | tick t hp hct => exact inv_tick s t hI hp hct
  | start hm => exact inv_handleStart s hI hm
  | pause hm => exact inv_handlePause s hI
  | stop hm => exact inv_handleStop s hI
  | openSet => exact inv_openSettings s hI
  | closeSet hm => exact inv_closeSettings s hI hm
  | edit c hm => exact inv_editScript s c hI hm
  | setWpm v hm hv1 hv2 => exact inv_settingsChange s _ hI hm hv1
  | setFontSize v hm hv1 hv2 => exact inv_settingsChange s _ hI hm hI.wpm_lb
  | setLineHeight v hm hv1 hv2 => exact inv_settingsChange s _ hI hm hI.wpm_lb
  | toggleAuto externalOk hm =>
      exact inv_settingsChange s _ hI hm
        (by rw [toggleAutoStart_wpm]; exact hI.wpm_lb)
  | restore disableOk hm =>
      exact inv_settingsChange s _ hI hm (by norm_num [restoreDefaults, DEFAULT_SETTINGS])

theorem reachable_inv (s : AppState) (h : Reachable s) : Inv s := by
  induction h with
  | init => exact inv_initState
  | step s s' e _ hst ih => exact inv_step s s' e ih hst

theorem tick_first_after_anchor (s : AppState) (t : ℚ) (hst : s.startTime = none)
    (h1 : s.startProgress ≤ 1) :
    (tick s t).1.progress = s.startProgress ∧
    (tick s t).1.startProgress = s.startProgress ∧
    (tick s t).1.startTime = some t := by
  have hcand : s.startProgress +
      (t - s.startTime.getD t) / 1000 / totalSeconds s.content s.settings =
      s.startProgress := by
    rw [hst]
    simp
  rcases le_or_lt 1 s.startProgress with hc | hc
  · have hone : s.startProgress = 1 := le_antisymm h1 hc
    rw [tick_complete s t (by rw [hcand]; exact hc)]
    refine ⟨hone.symm, hone.symm, ?_⟩
    simp [hst]
  · rw [tick_advance s t (by rw [hcand]; exact not_le.mpr hc)]
    refine ⟨hcand, rfl, ?_⟩
    simp [hst]

theorem tick_anchored_progress (s : AppState) (t0 t2 : ℚ) (hst : s.startTime = some t0)
    (hc : s.startProgress + (t2 - t0) / 1000 / totalSeconds s.content s.settings < 1) :
    (tick s t2).1.progress =
      s.startProgress + (t2 - t0) / 1000 / totalSeconds s.content s.settings := by
  have hg : s.startTime.getD t2 = t0 := by rw [hst]; rfl
  rw [tick_advance s t2 (by rw [hg]; exact not_le.mpr hc), hg]

theorem tick_progress_mono (s : AppState) (t : ℚ) (hI : Inv s) (hp : s.isPlaying = true)
    (hct : s.clock ≤ t) : s.progress ≤ (tick s t).1.progress := by
  have hts : 0 < totalSeconds s.content s.settings := totalSeconds_pos _ _ hI.wpm_lb
  set a := s.startTime.getD t with ha
  have hpr : s.progress ≤ s.startProgress +
      (t - a) / 1000 / totalSeconds s.content s.settings := by
    cases hst : s.startTime with
    | none =>
        have h0 := hI.playing_unanchored hp hst
        simp [ha, hst, h0]
    | some t0 =>
        obtain ⟨h1, h2⟩ := hI.playing_anchor hp t0 hst
        have ha0 : a = t0 := by simp [ha, hst]
        rw [ha0]
        refine le_trans h2 ?_
        have h4 : (s.clock - t0) / 1000 ≤ (t - t0) / 1000 := by linarith
        have h5 := (div_le_div_iff_of_pos_right hts).mpr h4
        linarith
  rcases le_or_lt 1 (s.startProgress +
      (t - a) / 1000 / totalSeconds s.content s.settings) with hc | hc
  · rw [tick_complete s t (by rw [← ha]; exact hc)]
    exact hI.prog_le_one
  · rw [tick_advance s t (by rw [← ha]; exact not_le.mpr hc), ← ha]
    exact hpr

theorem step_progress_lower (s s' : AppState) (e : Event) (hI : Inv s)
    (h : Step s e s') :
    s.progress ≤ s'.progress ∨ e = Event.stop ∨ ∃ c, e = Event.edit c := by
  cases h with
  | tick t hp hct => exact Or.inl (tick_progress_mono s t hI hp hct)
  | start hm =>
      left
      unfold handleStart
      split
      case isTrue hh => exact le_of_eq (hI.input_reset hh).1
      case isFalse hh => exact le_refl _
  | pause hm =>
      left
      unfold handlePause
      split <;> exact le_refl _
  | stop hm => exact Or.inr (Or.inl rfl)
  | openSet =>
      left
      unfold openSettings
      split <;> exact le_refl _
  | closeSet hm => exact Or.inl (le_refl _)
  | edit c hm => exact Or.inr (Or.inr ⟨c, rfl⟩)
  | setWpm v hm hv1 hv2 => exact Or.inl (le_refl _)
  | setFontSize v hm hv1 hv2 => exact Or.inl (le_refl _)
  | setLineHeight v hm hv1 hv2 => exact Or.inl (le_refl _)
  | toggleAuto externalOk hm => exact Or.inl (le_refl _)
  | restore disableOk hm => exact Or.inl (le_refl _)

theorem clamp_mem (v lo hi : ℚ) (h : lo ≤ hi) :
    lo ≤ clamp v lo hi ∧ clamp v lo hi ≤ hi := by
  unfold clamp
  exact ⟨le_min h (le_max_left lo v), min_le_left hi _⟩

/-- C1: Natural completion.  For every playback state with isPlaying = true,
a tick whose candidate progress startProgress + elapsed/totalSeconds is at
least 1 sets progress = 1, startProgress = 1 and isPlaying = false, schedules
no further frame, and leaves the mode unchanged (in particular progress is
not reset to 0). -/
theorem naturalCompletion_tick (s : AppState) (t : ℚ) (_hp : s.isPlaying = true)
    (hc : 1 ≤ s.startProgress +
      (t - s.startTime.getD t) / 1000 / totalSeconds s.content s.settings) :
    (tick s t).1.progress = 1 ∧
    (tick s t).1.startProgress = 1 ∧
    (tick s t).1.isPlaying = false ∧
    (tick s t).2 = false ∧
    (tick s t).1.mode = s.mode := by
  rw [tick_complete s t hc]
  exact ⟨rfl, rfl, rfl, rfl, rfl⟩

/-- A state whose next candidate progress is already 1 (startProgress 1,
fresh anchor), used by the C1 witness. -/
def candidateOneSample : AppState :=
  { mode := Mode.prompter, isPlaying := true, progress := 1, content := "hi",
    settings := DEFAULT_SETTINGS, startTime := none, startProgress := 1,
    settingsReturnMode := Mode.input, clock := 0 }

/-- Witness for C1 at a concrete completed-candidate state. -/
theorem naturalCompletion_tick_witness :
    (tick candidateOneSample 5).1.progress = 1 ∧
    (tick candidateOneSample 5).1.startProgress = 1 ∧
    (tick candidateOneSample 5).1.isPlaying = false ∧
    (tick candidateOneSample 5).2 = false ∧
    (tick candidateOneSample 5).1.mode = candidateOneSample.mode :=
  naturalCompletion_tick candidateOneSample 5 rfl (by simp [candidateOneSample])

/-- C2: Stop resets.  From every prior state, handleStop sets
isPlaying = false, progress = 0, startProgress = 0, startTime = none and
moves the mode to Input. -/
theorem stop_resets (s : AppState) :
    (handleStop s).isPlaying = false ∧
    (handleStop s).progress = 0 ∧
    (handleStop s).startProgress = 0 ∧
    (handleStop s).startTime = none ∧
    (handleStop s).mode = Mode.input :=
  ⟨rfl, rfl, rfl, rfl, rfl⟩

/-- C3: Monotonicity.  On any step out of a reachable state, a strict
decrease of progress means the event was stop or a script edit; in
particular every update tick (whose timestamps never decrease, by the Step
guard) leaves progress non-decreasing. -/
theorem progress_monotone (s s' : AppState) (e : Event) (hr : Reachable s)
    (hstep : Step s e s') :
    (s'.progress < s.progress → e = Event.stop ∨ ∃ c, e = Event.edit c) ∧
    (∀ t, e = Event.tick t → s.progress ≤ s'.progress) := by
  have hI := reachable_inv s hr
  have hlow := step_progress_lower s s' e hI hstep
  constructor
  · intro hlt
    rcases hlow with hle | h | h
    · exact absurd hlt (not_lt.mpr hle)
    · exact Or.inl h
    · exact Or.inr h
  · intro t het
    subst het
    rcases hlow with hle | h | ⟨c, h⟩
    · exact hle
    · exact Event.noConfusion h
    · exact Event.noConfusion h

/-- Witness for C3 at the initial state and one openSettings step. -/
theorem progress_monotone_witness :
    ((openSettings initState).progress < initState.progress →
      Event.openSet = Event.stop ∨ ∃ c, Event.openSet = Event.edit c) ∧
    (∀ t, Event.openSet = Event.tick t →
      initState.progress ≤ (openSettings initState).progress) :=
  progress_monotone initState (openSettings initState) Event.openSet
    Reachable.init (Step.openSet initState)

/-- C4: Pause/resume continuity.  Pausing while playing commits
startProgress = progress; resuming in Prompter mode keeps progress where it
was with a cleared anchor, the first post-resume tick only re-anchors
startTime and leaves progress unchanged, and a later tick advances
continuously from that value. -/
theorem pause_resume_continuity (s : AppState) (t t2 : ℚ) (hp : s.isPlaying = true)
    (hm : s.mode = Mode.prompter) (h1 : s.progress ≤ 1)
    (hwpm : 20 ≤ s.settings.wordsPerMinute) :
    (handleStart (handlePause s)).progress = s.progress ∧
    (handleStart (handlePause s)).startProgress = s.progress ∧
    (handleStart (handlePause s)).startTime = none ∧
    (tick (handleStart (handlePause s)) t).1.progress = s.progress ∧
    (t ≤ t2 →
      s.progress + (t2 - t) / 1000 / totalSeconds s.content s.settings < 1 →
      (tick (tick (handleStart (handlePause s)) t).1 t2).1.progress =
        s.progress + (t2 - t) / 1000 / totalSeconds s.content s.settings) := by
  have hts : 0 < totalSeconds s.content s.settings := totalSeconds_pos _ _ hwpm
  have hs1 : handleStart (handlePause s) =
      { s with startProgress := s.progress, startTime := none, isPlaying := true } := by
    unfold handlePause handleStart
    rw [if_pos hp]
    rw [if_neg (fun hh => Mode.noConfusion (hm.symm.trans hh))]
  rw [hs1]
  have hfirst := tick_first_after_anchor
    { s with startProgress := s.progress, startTime := none, isPlaying := true } t rfl h1
  refine ⟨rfl, rfl, rfl, hfirst.1, ?_⟩
  intro ht2 hlt
  have hx : 0 ≤ (t2 - t) / 1000 / totalSeconds s.content s.settings :=
    div_nonneg (div_nonneg (by linarith) (by norm_num)) hts.le
  have hp1 : s.progress < 1 := by linarith
  have hadv := tick_advance
    { s with startProgress := s.progress, startTime := none, isPlaying := true } t
    (by simp; linarith)
  rw [hadv]
  exact tick_anchored_progress _ t t2 (by simp) hlt

/-- A mid-playback Prompter state at progress one half, used by the C4 and
C9 and C10 witnesses. -/
def playingSample : AppState :=
  { mode := Mode.prompter, isPlaying := true, progress := 1/2, content := "hi",
    settings := DEFAULT_SETTINGS, startTime := some 0, startProgress := 0,
    settingsReturnMode := Mode.input, clock := 500 }

/-- Witness for C4 at a concrete mid-playback state. -/
theorem pause_resume_continuity_witness :
    (handleStart (handlePause playingSample)).progress = playingSample.progress ∧
    (handleStart (handlePause playingSample)).startProgress = playingSample.progress ∧
    (handleStart (handlePause playingSample)).startTime = none ∧
    (tick (handleStart (handlePause playingSample)) 600).1.progress =
      playingSample.progress ∧
    ((600:ℚ) ≤ 700 →
      playingSample.progress + (700 - 600) / 1000 /
        totalSeconds playingSample.content playingSample.settings < 1 →
      (tick (tick (handleStart (handlePause playingSample)) 600).1 700).1.progress =
        playingSample.progress + (700 - 600) / 1000 /
          totalSeconds playingSample.content playingSample.settings) :=
  pause_resume_continuity playingSample 600 700 rfl rfl (by norm_num [playingSample])
    (by norm_num [playingSample, DEFAULT_SETTINGS])

/-- C5: Settings round-trip.  Opening Settings from a non-Settings mode m
records m as the return mode and closing restores m; opening while already
in Settings changes nothing; and in every reachable state the recorded
return mode is never Settings itself. -/
theorem settings_roundtrip :
    (∀ s : AppState, s.mode ≠ Mode.settings →
      (openSettings s).settingsReturnMode = s.mode ∧
      (openSettings s).mode = Mode.settings ∧
      (closeSettings (openSettings s)).mode = s.mode) ∧
    (∀ s : AppState, s.mode = Mode.settings → openSettings s = s) ∧
    (∀ s : AppState, Reachable s → s.settingsReturnMode ≠ Mode.settings) := by
  refine ⟨?_, ?_, ?_⟩
  · intro s h
    unfold openSettings
    rw [if_neg h]
    exact ⟨rfl, rfl, rfl⟩
  · intro s h
    unfold openSettings
    rw [if_pos h]
  · intro s hr
    exact (reachable_inv s hr).srm_ne

/-- Witness for C5 at the initial state (Input mode). -/
theorem settings_roundtrip_witness :
    ((openSettings initState).settingsReturnMode = initState.mode ∧
      (openSettings initState).mode = Mode.settings ∧
      (closeSettings (openSettings initState)).mode = initState.mode) ∧
    initState.settingsReturnMode ≠ Mode.settings :=
  ⟨settings_roundtrip.1 initState (fun h => Mode.noConfusion h),
   settings_roundtrip.2.2 initState Reachable.init⟩

/-- C6: Settings clamp invariant.  Every settings state reachable from any
load (arbitrary persisted record, arbitrary live autostart answer) by any
sequence of slider updates (whose range inputs bound the delivered value),
toggleAutoStart and restoreDefaults keeps wordsPerMinute in 20..240,
fontSize in 20..64 and lineHeight in 28..96. -/
theorem settings_clamp_invariant (st : Settings) (h : SettingsReachable st) :
    settingsInBounds st := by
  induction h with
  | loaded stored live =>
      unfold load normalizeSettings settingsInBounds
      exact ⟨(clamp_mem _ 20 240 (by norm_num)).1, (clamp_mem _ 20 240 (by norm_num)).2,
             (clamp_mem _ 20 64 (by norm_num)).1, (clamp_mem _ 20 64 (by norm_num)).2,
             (clamp_mem _ 28 96 (by norm_num)).1, (clamp_mem _ 28 96 (by norm_num)).2⟩
  | step st st' hr hst ih =>
      cases hst with
      | setWpm v h1 h2 =>
          exact ⟨h1, h2, ih.2.2.1, ih.2.2.2.1, ih.2.2.2.2.1, ih.2.2.2.2.2⟩
      | setFontSize v h1 h2 =>
          exact ⟨ih.1, ih.2.1, h1, h2, ih.2.2.2.2.1, ih.2.2.2.2.2⟩
      | setLineHeight v h1 h2 =>
          exact ⟨ih.1, ih.2.1, ih.2.2.1, ih.2.2.2.1, h1, h2⟩
      | toggleAuto externalOk => cases externalOk <;> exact ih
      | restore disableOk => exact by norm_num [settingsInBounds, restoreDefaults, DEFAULT_SETTINGS]

/-- Witness for C6: the state loaded from an empty record is in bounds. -/
theorem settings_clamp_invariant_witness :
    settingsInBounds (load {} false) :=
  settings_clamp_invariant _ (SettingsReachable.loaded {} false)

/-- C7: Autostart rollback.  toggleAutoStart first flips the flag in memory
(first component); when the external call fails the settled state equals the
pre-toggle settings (the flag is reverted and nothing else changed), and when
it succeeds the flip is kept.  The function is total: the failure is absorbed
by the catch block and no exception reaches the caller. -/
theorem toggleAutoStart_rollback (st : Settings) :
    (toggleAutoStart st false).1.autoStart = !st.autoStart ∧
    (toggleAutoStart st false).2 = st ∧
    (toggleAutoStart st true).2.autoStart = !st.autoStart := by
  refine ⟨rfl, ?_, rfl⟩
  simp [toggleAutoStart]

/-- C8: Division safety.  The derived word count is at least 1 for every
content, and with a clamped wordsPerMinute (at least 20) the derived
totalSeconds is strictly positive, so the tick division never divides by
zero or a negative number. -/
theorem division_safety (content : String) (st : Settings)
    (h : 20 ≤ st.wordsPerMinute) :
    1 ≤ totalWords content ∧ 0 < totalSeconds content st :=
  ⟨one_le_totalWords content, totalSeconds_pos content st h⟩

/-- Witness for C8 on the empty script and the default settings. -/
theorem division_safety_witness :
    1 ≤ totalWords "" ∧ 0 < totalSeconds "" DEFAULT_SETTINGS :=
  division_safety "" DEFAULT_SETTINGS (by norm_num [DEFAULT_SETTINGS])

/-- C9: Replay after completion.  From the naturally-completed state
(Prompter mode, progress = 1), handleStart turns isPlaying back on, but the
very first tick immediately re-completes: progress stays 1, isPlaying drops
back to false and no further frame is scheduled. -/
theorem replay_recompletes (s : AppState) (t : ℚ) (hm : s.mode = Mode.prompter)
    (hp1 : s.progress = 1) :
    (handleStart s).isPlaying = true ∧
    (tick (handleStart s) t).1.progress = 1 ∧
    (tick (handleStart s) t).1.isPlaying = false ∧
    (tick (handleStart s) t).2 = false := by
  have hs1 : handleStart s =
      { s with startProgress := s.progress, startTime := none, isPlaying := true } := by
    unfold handleStart
    rw [if_neg (fun hh => Mode.noConfusion (hm.symm.trans hh))]
  rw [hs1]
  rw [tick_complete _ t (by simp [hp1])]
  exact ⟨rfl, rfl, rfl, rfl⟩

/-- Witness for C9 at a concrete completed state. -/
theorem replay_recompletes_witness :
    (handleStart { playingSample with isPlaying := false, progress := 1,
                                      startProgress := 1 }).isPlaying = true ∧
    (tick (handleStart { playingSample with isPlaying := false, progress := 1,
                                            startProgress := 1 }) 1100).1.progress = 1 ∧
    (tick (handleStart { playingSample with isPlaying := false, progress := 1,
                                            startProgress := 1 }) 1100).1.isPlaying = false ∧
    (tick (handleStart { playingSample with isPlaying := false, progress := 1,
                                            startProgress := 1 }) 1100).2 = false :=
  replay_recompletes _ 1100 rfl rfl

/-- C10: Resume always re-anchors.  handleStart in Prompter mode commits
startProgress = progress before playing resumes, and leaves progress in
place; openSettings pauses without touching startProgress or progress; and
resuming after an openSettings/closeSettings round trip therefore anchors at
the current progress, keeping the resume continuous. -/
theorem resume_reanchors (s : AppState) (hm : s.mode = Mode.prompter) :
    (handleStart s).startProgress = s.progress ∧
    (handleStart s).isPlaying = true ∧
    (handleStart s).progress = s.progress ∧
    (openSettings s).isPlaying = false ∧
    (openSettings s).startProgress = s.startProgress ∧
    (openSettings s).progress = s.progress ∧
    (handleStart (closeSettings (openSettings s))).startProgress = s.progress ∧
    (handleStart (closeSettings (openSettings s))).isPlaying = true := by
  have hne : s.mode ≠ Mode.input := fun hh => Mode.noConfusion (hm.symm.trans hh)
  have hns : s.mode ≠ Mode.settings := fun hh => Mode.noConfusion (hm.symm.trans hh)
  have h1 : handleStart s =
      { s with startProgress := s.progress, startTime := none, isPlaying := true } := by
    unfold handleStart
    rw [if_neg hne]
  have h2 : openSettings s =
      { s with settingsReturnMode := s.mode, isPlaying := false,
               mode := Mode.settings } := by
    unfold openSettings
    rw [if_neg hns]
  have h4 : handleStart (closeSettings (openSettings s)) =
      { s with settingsReturnMode := s.mode, mode := s.mode,
               startProgress := s.progress, startTime := none,
               isPlaying := true } := by
    rw [h2]
    unfold closeSettings handleStart
    rw [if_neg (fun hh => hne hh)]
  rw [h4, h1, h2]
  exact ⟨rfl, rfl, rfl, rfl, rfl, rfl, rfl, rfl⟩

/-- Witness for C10 at a concrete Prompter-mode state. -/
theorem resume_reanchors_witness :
    (handleStart { playingSample with isPlaying := false }).startProgress =
      playingSample.progress ∧
    (openSettings { playingSample with isPlaying := false }).isPlaying = false ∧
    (handleStart (closeSettings (openSettings
        { playingSample with isPlaying := false }))).startProgress =
      playingSample.progress :=
  ⟨(resume_reanchors _ rfl).1, (resume_reanchors _ rfl).2.2.2.1,
   (resume_reanchors _ rfl).2.2.2.2.2.2.1⟩

end FlashPrompter
